import Mathlib

/-!
Shallow embedding of `src/replication/readevent.rs` from the binlogAL
repository: a MySQL binlog event decoder.  Byte sources are modelled as a
list of bytes together with a cursor position; every fallible read returns
`Option` — `none` models the `Err` of the underlying Rust read, on which the
source code calls `.unwrap()` (a panic).  Multi-byte integers are read
little-endian, as in the source (`byteorder::LittleEndian`).
-/

/-- A positioned byte source: models `Cursor`-like `Read + Seek` values.
`data` is the full underlying byte list, `pos` the current offset. -/
structure ByteSource where
  data : List Nat
  pos : Nat
deriving DecidableEq

/-- `Tell::tell`: report the current absolute offset (always succeeds on a
cursor). -/
def ByteSource.tell (b : ByteSource) : Nat := b.pos

/-- `Seek::seek(SeekFrom::Current(n))` for a non-negative `n`, as used by the
decoder: advance the position without reading (seeking past the end of a
cursor succeeds). -/
def seek_cur (n : Nat) (b : ByteSource) : ByteSource :=
  ⟨b.data, b.pos + n⟩

/-- `read_u8`: read one byte, failing (`none`, which the source unwraps) at
end of data. -/
def read_u8 (b : ByteSource) : Option (Nat × ByteSource) :=
  match b.data.drop b.pos with
  | [] => none
  | v :: _ => some (v, ⟨b.data, b.pos + 1⟩)

/-- `read_u16::<LittleEndian>`: two bytes, least significant first. -/
def read_u16_le (b : ByteSource) : Option (Nat × ByteSource) :=
  match b.data.drop b.pos with
  | b0 :: b1 :: _ => some (b0 + 256 * b1, ⟨b.data, b.pos + 2⟩)
  | _ => none

/-- `read_u32::<LittleEndian>`: four bytes, least significant first. -/
def read_u32_le (b : ByteSource) : Option (Nat × ByteSource) :=
  match b.data.drop b.pos with
  | b0 :: b1 :: b2 :: b3 :: _ =>
      some (b0 + 256 * b1 + 256 ^ 2 * b2 + 256 ^ 3 * b3, ⟨b.data, b.pos + 4⟩)
  | _ => none

/-- `read_u64::<LittleEndian>`: eight bytes, least significant first. -/
def read_u64_le (b : ByteSource) : Option (Nat × ByteSource) :=
  match b.data.drop b.pos with
  | b0 :: b1 :: b2 :: b3 :: b4 :: b5 :: b6 :: b7 :: _ =>
      some (b0 + 256 * b1 + 256 ^ 2 * b2 + 256 ^ 3 * b3 + 256 ^ 4 * b4 +
              256 ^ 5 * b5 + 256 ^ 6 * b6 + 256 ^ 7 * b7,
            ⟨b.data, b.pos + 8⟩)
  | _ => none

/-- `read_exact` into a zero-initialised `vec![0u8; n]` with the returned
`Result` ignored, as the source does (`buf.read_exact(&mut pack);`): the
available bytes fill a prefix of the buffer, the rest of the buffer keeps its
zero fill, and the cursor advances by the bytes actually read. -/
def read_exact_ign (n : Nat) (b : ByteSource) : List Nat × ByteSource :=
  let taken := (b.data.drop b.pos).take n
  (taken ++ List.replicate (n - taken.length) 0, ⟨b.data, b.pos + taken.length⟩)

/-- `read_to_end`: consume every byte remaining in the source. -/
def read_to_end (b : ByteSource) : List Nat × ByteSource :=
  (b.data.drop b.pos, ⟨b.data, max b.pos b.data.length⟩)

/-- Modelled from the spec: `readvalue::read_string_value` lives in
`src/readvalue.rs`, which is not among the provided sources.  The spec says
text fields are decoded permissively from their raw bytes; the byte sequence
itself is kept here, which is adequate for the length and content properties
proved below. -/
def read_string_value (b : List Nat) : List Nat := b

/-- Modelled from the spec: `readvalue::read_string_value_from_len` lives in
`src/readvalue.rs`, which is not among the provided sources.  Per the spec,
length-prefixed text fields read exactly `n` raw bytes from the cursor; a
shortage is a failed read (unwrapped, hence `none`). -/
def read_string_value_from_len (b : ByteSource) (n : Nat) :
    Option (List Nat × ByteSource) :=
  if b.pos + n ≤ b.data.length then
    some ((b.data.drop b.pos).take n, ⟨b.data, b.pos + n⟩)
  else none

/-- The closed event-kind tag set (`enum BinlogEvent`). -/
inductive BinlogEvent where
  | QueryEvent
  | RotateLogEvent
  | TableMapEvent
  | GtidEvent
  | UpdateEvent
  | WriteEvent
  | DeleteEvent
  | XidEvent
  | XAPREPARELOGEVENT
  | UNKNOWNEVENT
deriving DecidableEq

/-- `struct EventHeader`: the fixed 19/20-byte framing header. -/
structure EventHeader where
  timestamp : Nat
  type_code : BinlogEvent
  server_id : Nat
  event_length : Nat
  next_position : Nat
  flags : Nat
  header_length : Nat
deriving DecidableEq

/-- `EventHeader::get_type_code_event`: fixed classification table on the
one-byte type code (the source repeats the `Some(33)` arm; the duplicate is
unreachable and omitted here). -/
def EventHeader.get_type_code_event (type_code : Option Nat) : BinlogEvent :=
  match type_code with
  | some 4 => BinlogEvent.RotateLogEvent
  | some 2 => BinlogEvent.QueryEvent
  | some 33 => BinlogEvent.GtidEvent
  | some 19 => BinlogEvent.TableMapEvent
  | some 30 => BinlogEvent.WriteEvent
  | some 31 => BinlogEvent.UpdateEvent
  | some 32 => BinlogEvent.DeleteEvent
  | some 16 => BinlogEvent.XidEvent
  | some 38 => BinlogEvent.XAPREPARELOGEVENT
  | _ => BinlogEvent.UNKNOWNEVENT

/-- `EventHeader::new` (`impl InitHeader for EventHeader`): `repl` is the
configuration test `conf.conntype == "repl"`.  Each `.unwrap()` on a failed
read is modelled by propagating `none`. -/
def EventHeader.new (repl : Bool) (buf : ByteSource) :
    Option (EventHeader × ByteSource) := do
  let header_length : Nat := if repl then 19 + 1 else 19
  let buf := if repl then seek_cur 1 buf else buf
  let (timestamp, buf) ← read_u32_le buf
  let (tc, buf) ← read_u8 buf
  let type_code := EventHeader.get_type_code_event (some tc)
  let (server_id, buf) ← read_u32_le buf
  let (event_length, buf) ← read_u32_le buf
  let (next_position, buf) ← read_u32_le buf
  let (flags, buf) ← read_u16_le buf
  some (⟨timestamp, type_code, server_id, event_length, next_position,
         flags, header_length⟩, buf)

/-- `struct QueryEvent`: text fields are kept as raw byte lists (see
`read_string_value`). -/
structure QueryEvent where
  thread_id : Nat
  execute_seconds : Nat
  database : List Nat
  command : List Nat
deriving DecidableEq

/-- `QueryEvent::read_event` (`impl InitValue for QueryEvent`).  The source
computes `command_length = header.event_length - buf.tell()` (a `usize`
subtraction that wraps in release builds) but never uses it: the command is
read with `read_to_end`.  The dead computation is kept here as `_command_length`
on `Int`, exactly as unused as in the source. -/
def QueryEvent.read_event (header : EventHeader) (buf : ByteSource) :
    Option (QueryEvent × ByteSource) := do
  let (thread_id, buf) ← read_u32_le buf
  let (execute_seconds, buf) ← read_u32_le buf
  let (database_length, buf) ← read_u8 buf
  let (_error_code, buf) ← read_u16_le buf
  let (variable_block_length, buf) ← read_u16_le buf
  let buf := seek_cur variable_block_length buf
  let (database_pack, buf) := read_exact_ign database_length buf
  let database := read_string_value database_pack
  let buf := seek_cur 1 buf
  let _command_length : Int := (header.event_length : Int) - (buf.tell : Int)
  let (command_pak, buf) := read_to_end buf
  let command := read_string_value command_pak
  some (⟨thread_id, execute_seconds, database, command⟩, buf)

/-- `struct GtidEvent`: the UUID is kept as its 16 raw bytes. -/
structure GtidEvent where
  gtid : List Nat
  gno_id : Nat
  last_committed : Nat
  sequence_number : Nat
deriving DecidableEq

/-- `GtidEvent::read_event` (`impl InitValue for GtidEvent`): skip the flag
byte, read the 16-byte SID (`read_exact` with the `Result` ignored), then
three unwrapped little-endian u64 reads. -/
def GtidEvent.read_event (_header : EventHeader) (buf : ByteSource) :
    Option (GtidEvent × ByteSource) := do
  let buf := seek_cur 1 buf
  let (sid, buf) := read_exact_ign 16 buf
  let gtid := sid
  let (gno_id, buf) ← read_u64_le buf
  let (last_committed, buf) ← read_u64_le buf
  let (sequence_number, buf) ← read_u64_le buf
  some (⟨gtid, gno_id, last_committed, sequence_number⟩, buf)

/-- Modelled from the spec: `enum ColumnTypeDict` lives in `src/meta.rs`,
which is not among the provided sources.  The spec describes the Column Type
Registry as a closed enumeration of semantic column kinds; the variants are
those matched by `TableMap::read_column_meta` plus the remaining standard
MySQL protocol column kinds and an explicit unrecognized kind. -/
inductive ColumnTypeDict where
  | MYSQL_TYPE_DECIMAL
  | MYSQL_TYPE_TINY
  | MYSQL_TYPE_SHORT
  | MYSQL_TYPE_LONG
  | MYSQL_TYPE_FLOAT
  | MYSQL_TYPE_DOUBLE
  | MYSQL_TYPE_NULL
  | MYSQL_TYPE_TIMESTAMP
  | MYSQL_TYPE_LONGLONG
  | MYSQL_TYPE_INT24
  | MYSQL_TYPE_DATE
  | MYSQL_TYPE_TIME
  | MYSQL_TYPE_DATETIME
  | MYSQL_TYPE_YEAR
  | MYSQL_TYPE_NEWDATE
  | MYSQL_TYPE_VARCHAR
  | MYSQL_TYPE_BIT
  | MYSQL_TYPE_TIMESTAMP2
  | MYSQL_TYPE_DATETIME2
  | MYSQL_TYPE_TIME2
  | MYSQL_TYPE_JSON
  | MYSQL_TYPE_NEWDECIMAL
  | MYSQL_TYPE_ENUM
  | MYSQL_TYPE_SET
  | MYSQL_TYPE_TINY_BLOB
  | MYSQL_TYPE_MEDIUM_BLOB
  | MYSQL_TYPE_LONG_BLOB
  | MYSQL_TYPE_BLOB
  | MYSQL_TYPE_VAR_STRING
  | MYSQL_TYPE_STRING
  | MYSQL_TYPE_GEOMETRY
  | UNKNOWN_TYPE
deriving DecidableEq

/-- Modelled from the spec: `ColumnTypeDict::from_type_code` (in the missing
`src/meta.rs`) is, per the spec, a total function from the one-byte MySQL
column-type code to a semantic kind, with every unmapped code going to the
explicit unrecognized kind.  Codes are the standard MySQL protocol values
named by the variant names. -/
def ColumnTypeDict.from_type_code (code : Nat) : ColumnTypeDict :=
  match code with
  | 0 => MYSQL_TYPE_DECIMAL
  | 1 => MYSQL_TYPE_TINY
  | 2 => MYSQL_TYPE_SHORT
  | 3 => MYSQL_TYPE_LONG
  | 4 => MYSQL_TYPE_FLOAT
  | 5 => MYSQL_TYPE_DOUBLE
  | 6 => MYSQL_TYPE_NULL
  | 7 => MYSQL_TYPE_TIMESTAMP
  | 8 => MYSQL_TYPE_LONGLONG
  | 9 => MYSQL_TYPE_INT24
  | 10 => MYSQL_TYPE_DATE
  | 11 => MYSQL_TYPE_TIME
  | 12 => MYSQL_TYPE_DATETIME
  | 13 => MYSQL_TYPE_YEAR
  | 14 => MYSQL_TYPE_NEWDATE
  | 15 => MYSQL_TYPE_VARCHAR
  | 16 => MYSQL_TYPE_BIT
  | 17 => MYSQL_TYPE_TIMESTAMP2
  | 18 => MYSQL_TYPE_DATETIME2
  | 19 => MYSQL_TYPE_TIME2
  | 245 => MYSQL_TYPE_JSON
  | 246 => MYSQL_TYPE_NEWDECIMAL
  | 247 => MYSQL_TYPE_ENUM
  | 248 => MYSQL_TYPE_SET
  | 249 => MYSQL_TYPE_TINY_BLOB
  | 250 => MYSQL_TYPE_MEDIUM_BLOB
  | 251 => MYSQL_TYPE_LONG_BLOB
  | 252 => MYSQL_TYPE_BLOB
  | 253 => MYSQL_TYPE_VAR_STRING
  | 254 => MYSQL_TYPE_STRING
  | 255 => MYSQL_TYPE_GEOMETRY
  | _ => UNKNOWN_TYPE

/-- `struct ColumnInfo`: the per-column contract handed to the row-decoding
layer. -/
structure ColumnInfo where
  column_type : ColumnTypeDict
  column_meta : List Nat
deriving DecidableEq

/-- `struct TableMap`. -/
structure TableMap where
  database_name : List Nat
  table_name : List Nat
  column_count : Nat
  column_info : List ColumnInfo
deriving DecidableEq

/-- `TableMap::read_one_bytes`: one metadata byte recorded verbatim. -/
def TableMap.read_one_bytes (buf : ByteSource) : Option (List Nat × ByteSource) := do
  let (v, buf) ← read_u8 buf
  some ([v], buf)

/-- `TableMap::read_string_meta`: 2-byte little-endian metadata; record `[2]`
when it exceeds 255, else `[1]`. -/
def TableMap.read_string_meta (buf : ByteSource) : Option (List Nat × ByteSource) := do
  let (metadata, buf) ← read_u16_le buf
  some (if 255 < metadata then [2] else [1], buf)

/-- `TableMap::read_newdecimal`: precision byte then decimals byte. -/
def TableMap.read_newdecimal (buf : ByteSource) : Option (List Nat × ByteSource) := do
  let (precision, buf) ← read_u8 buf
  let (decimals, buf) ← read_u8 buf
  some ([precision, decimals], buf)

/-- `TableMap::read_string_type`: stored type byte then metadata byte; the
sentinel `[65535]` when the stored type differs from the declared type. -/
def TableMap.read_string_type (buf : ByteSource) (col_type : Nat) :
    Option (List Nat × ByteSource) := do
  let (t, buf) ← read_u8 buf
  let (metadata, buf) ← read_u8 buf
  some (if col_type ≠ t then [65535] else [metadata], buf)

/-- `TableMap::read_column_meta`: dispatch on the semantic kind of the
declared type code. -/
def TableMap.read_column_meta (buf : ByteSource) (col_type : Nat) :
    Option (List Nat × ByteSource) :=
  match ColumnTypeDict.from_type_code col_type with
  | ColumnTypeDict.MYSQL_TYPE_VAR_STRING => TableMap.read_string_meta buf
  | ColumnTypeDict.MYSQL_TYPE_VARCHAR => TableMap.read_string_meta buf
  | ColumnTypeDict.MYSQL_TYPE_BLOB => TableMap.read_one_bytes buf
  | ColumnTypeDict.MYSQL_TYPE_MEDIUM_BLOB => TableMap.read_one_bytes buf
  | ColumnTypeDict.MYSQL_TYPE_LONG_BLOB => TableMap.read_one_bytes buf
  | ColumnTypeDict.MYSQL_TYPE_TINY_BLOB => TableMap.read_one_bytes buf
  | ColumnTypeDict.MYSQL_TYPE_JSON => TableMap.read_one_bytes buf
  | ColumnTypeDict.MYSQL_TYPE_TIMESTAMP2 => TableMap.read_one_bytes buf
  | ColumnTypeDict.MYSQL_TYPE_DATETIME2 => TableMap.read_one_bytes buf
  | ColumnTypeDict.MYSQL_TYPE_TIME2 => TableMap.read_one_bytes buf
  | ColumnTypeDict.MYSQL_TYPE_NEWDECIMAL => TableMap.read_newdecimal buf
  | ColumnTypeDict.MYSQL_TYPE_FLOAT => TableMap.read_one_bytes buf
  | ColumnTypeDict.MYSQL_TYPE_DOUBLE => TableMap.read_one_bytes buf
  | ColumnTypeDict.MYSQL_TYPE_STRING => TableMap.read_string_type buf col_type
  | _ => some ([0], buf)

/-- The per-column loop of `TableMap::read_event`: one `ColumnInfo` pushed
per entry of the type-code array, in order. -/
def TableMap.read_columns (types : List Nat) (buf : ByteSource) :
    Option (List ColumnInfo × ByteSource) :=
  match types with
  | [] => some ([], buf)
  | col_type :: rest => do
      let (col_meta, buf) ← TableMap.read_column_meta buf col_type
      let (tail, buf) ← TableMap.read_columns rest buf
      some (⟨ColumnTypeDict.from_type_code col_type, col_meta⟩ :: tail, buf)

/-- `TableMap::read_event` (`impl InitValue for TableMap`). -/
def TableMap.read_event (_header : EventHeader) (buf : ByteSource) :
    Option (TableMap × ByteSource) := do
  let buf := seek_cur 8 buf
  let (database_length, buf) ← read_u8 buf
  let (database_name, buf) ← read_string_value_from_len buf database_length
  let buf := seek_cur 1 buf
  let (table_length, buf) ← read_u8 buf
  let (table_name, buf) ← read_string_value_from_len buf table_length
  let buf := seek_cur 1 buf
  let (column_count, buf) ← read_u8 buf
  let (column_type_list, buf) := read_exact_ign column_count buf
  let buf := seek_cur 1 buf
  let (column_info, buf) ← TableMap.read_columns column_type_list buf
  some (⟨database_name, table_name, column_count, column_info⟩, buf)

/-! Helper lemmas about positioned reads. -/

lemma drop_step {l : List Nat} {p v : Nat} {rest : List Nat}
    (h : l.drop p = v :: rest) : l.drop (p + 1) = rest := by
  rw [← List.drop_drop, h]
  rfl

lemma read_u8_eq {data : List Nat} {p v : Nat} {rest : List Nat}
    (h : data.drop p = v :: rest) :
    read_u8 ⟨data, p⟩ = some (v, ⟨data, p + 1⟩) := by
  unfold read_u8
  simp only
  rw [h]

lemma read_u16_le_eq {data : List Nat} {p b0 b1 : Nat} {rest : List Nat}
    (h : data.drop p = b0 :: b1 :: rest) :
    read_u16_le ⟨data, p⟩ = some (b0 + 256 * b1, ⟨data, p + 2⟩) := by
  unfold read_u16_le
  simp only
  rw [h]

lemma read_u32_le_eq {data : List Nat} {p b0 b1 b2 b3 : Nat} {rest : List Nat}
    (h : data.drop p = b0 :: b1 :: b2 :: b3 :: rest) :
    read_u32_le ⟨data, p⟩ = some (b0 + 256 * b1 + 256 ^ 2 * b2 + 256 ^ 3 * b3,
      ⟨data, p + 4⟩) := by
  unfold read_u32_le
  simp only
  rw [h]

lemma read_u64_le_eq {data : List Nat} {p b0 b1 b2 b3 b4 b5 b6 b7 : Nat}
    {rest : List Nat}
    (h : data.drop p = b0 :: b1 :: b2 :: b3 :: b4 :: b5 :: b6 :: b7 :: rest) :
    read_u64_le ⟨data, p⟩ = some (b0 + 256 * b1 + 256 ^ 2 * b2 + 256 ^ 3 * b3 +
      256 ^ 4 * b4 + 256 ^ 5 * b5 + 256 ^ 6 * b6 + 256 ^ 7 * b7,
      ⟨data, p + 8⟩) := by
  unfold read_u64_le
  simp only
  rw [h]

/-! Decided claims. -/

set_option maxRecDepth 4096 in
/-- C9: header classification is the fixed total function on the one-byte
type code: 4 maps to RotateLogEvent, 2 to QueryEvent, 33 to GtidEvent, 19 to
TableMapEvent, 30 to WriteEvent, 31 to UpdateEvent, 32 to DeleteEvent, 16 to
XidEvent, 38 to XaPrepareLogEvent, and every other byte value to
UnknownEvent. -/
theorem c9_type_code_classification :
    ∀ b : Fin 256, EventHeader.get_type_code_event (some b.val) =
      (if b.val = 4 then BinlogEvent.RotateLogEvent
       else if b.val = 2 then BinlogEvent.QueryEvent
       else if b.val = 33 then BinlogEvent.GtidEvent
       else if b.val = 19 then BinlogEvent.TableMapEvent
       else if b.val = 30 then BinlogEvent.WriteEvent
       else if b.val = 31 then BinlogEvent.UpdateEvent
       else if b.val = 32 then BinlogEvent.DeleteEvent
       else if b.val = 16 then BinlogEvent.XidEvent
       else if b.val = 38 then BinlogEvent.XAPREPARELOGEVENT
       else BinlogEvent.UNKNOWNEVENT) := by decide

/-- C6: for a column of the fixed-length string/enum/set family,
`read_string_type` reads a stored type byte then a metadata byte, recording
exactly `[65535]` when the stored type code differs from the declared one
(whatever the metadata byte holds) and `[metadata byte]` otherwise, at any
cursor position and for any pair of input bytes. -/
theorem c6_string_type_sentinel (ct t m : Nat) (pre tail : List Nat) :
    TableMap.read_string_type ⟨pre ++ t :: m :: tail, pre.length⟩ ct =
      some (if ct ≠ t then [65535] else [m],
            ⟨pre ++ t :: m :: tail, pre.length + 2⟩) := by
  have h1 : (pre ++ t :: m :: tail).drop pre.length = t :: m :: tail :=
    List.drop_left pre _
  have h2 : (pre ++ t :: m :: tail).drop (pre.length + 1) = m :: tail :=
    drop_step h1
  simp only [TableMap.read_string_type, read_u8_eq h1, read_u8_eq h2,
    Option.bind_eq_bind, Option.some_bind]

/-- C7: for a var-string or varchar column, `read_string_meta` reads one
2-byte little-endian value and records `[2]` exactly when it exceeds 255 and
`[1]` otherwise, at any cursor position and for any input bytes; in
particular the value 300 yields `[2]` and the value 10 yields `[1]`. -/
theorem c7_varchar_meta :
    (∀ (b0 b1 : Nat) (pre tail : List Nat),
       TableMap.read_string_meta ⟨pre ++ b0 :: b1 :: tail, pre.length⟩ =
         some (if 255 < b0 + 256 * b1 then [2] else [1],
               ⟨pre ++ b0 :: b1 :: tail, pre.length + 2⟩)) ∧
    TableMap.read_string_meta ⟨[44, 1], 0⟩ = some ([2], ⟨[44, 1], 2⟩) ∧
    TableMap.read_string_meta ⟨[10, 0], 0⟩ = some ([1], ⟨[10, 0], 2⟩) := by
  refine ⟨?_, by decide, by decide⟩
  intro b0 b1 pre tail
  have h1 : (pre ++ b0 :: b1 :: tail).drop pre.length = b0 :: b1 :: tail :=
    List.drop_left pre _
  simp only [TableMap.read_string_meta, read_u16_le_eq h1,
    Option.bind_eq_bind, Option.some_bind]

/-- The metadata-bearing semantic kinds: exactly those matched by
`TableMap.read_column_meta` before its default arm. -/
def isMetaBearing : ColumnTypeDict → Bool
  | ColumnTypeDict.MYSQL_TYPE_VAR_STRING => true
  | ColumnTypeDict.MYSQL_TYPE_VARCHAR => true
  | ColumnTypeDict.MYSQL_TYPE_BLOB => true
  | ColumnTypeDict.MYSQL_TYPE_MEDIUM_BLOB => true
  | ColumnTypeDict.MYSQL_TYPE_LONG_BLOB => true
  | ColumnTypeDict.MYSQL_TYPE_TINY_BLOB => true
  | ColumnTypeDict.MYSQL_TYPE_JSON => true
  | ColumnTypeDict.MYSQL_TYPE_TIMESTAMP2 => true
  | ColumnTypeDict.MYSQL_TYPE_DATETIME2 => true
  | ColumnTypeDict.MYSQL_TYPE_TIME2 => true
  | ColumnTypeDict.MYSQL_TYPE_NEWDECIMAL => true
  | ColumnTypeDict.MYSQL_TYPE_FLOAT => true
  | ColumnTypeDict.MYSQL_TYPE_DOUBLE => true
  | ColumnTypeDict.MYSQL_TYPE_STRING => true
  | _ => false

/-- C8: for a column whose semantic type is not one of the metadata-bearing
families, `read_column_meta` records `[0]` and consumes zero bytes from the
cursor, and the per-column loop keeps decoding the remaining columns instead
of aborting. -/
theorem c8_unrecognized_type_default (c : Nat) (cs : List Nat) (b : ByteSource)
    (h : isMetaBearing (ColumnTypeDict.from_type_code c) = false) :
    TableMap.read_column_meta b c = some ([0], b) ∧
    TableMap.read_columns (c :: cs) b =
      (TableMap.read_columns cs b).map
        (fun r => (⟨ColumnTypeDict.from_type_code c, [0]⟩ :: r.1, r.2)) := by
  have h1 : TableMap.read_column_meta b c = some ([0], b) := by
    unfold TableMap.read_column_meta
    revert h
    cases ColumnTypeDict.from_type_code c <;> intro h <;>
      simp [isMetaBearing] at h ⊢
  refine ⟨h1, ?_⟩
  have hcons : TableMap.read_columns (c :: cs) b =
      (TableMap.read_column_meta b c).bind fun m =>
        (TableMap.read_columns cs m.2).bind fun t =>
          some (⟨ColumnTypeDict.from_type_code c, m.1⟩ :: t.1, t.2) := rfl
  rw [hcons, h1]
  cases hr : TableMap.read_columns cs b <;>
    simp [Option.bind_eq_bind, Option.some_bind, hr]

/-- Witness for C8: MySQL type code 3 (`MYSQL_TYPE_LONG`) bears no metadata;
on a concrete source the decoder records `[0]`, leaves the cursor untouched
and continues with the rest of the column list. -/
theorem c8_witness :
    TableMap.read_column_meta ⟨[7, 7], 0⟩ 3 = some ([0], ⟨[7, 7], 0⟩) ∧
    TableMap.read_columns [3] ⟨[7, 7], 0⟩ =
      (TableMap.read_columns [] ⟨[7, 7], 0⟩).map
        (fun r => (⟨ColumnTypeDict.from_type_code 3, [0]⟩ :: r.1, r.2)) :=
  c8_unrecognized_type_default 3 [] ⟨[7, 7], 0⟩ (by decide)

lemma read_exact_ign_length (n : Nat) (b : ByteSource) :
    (read_exact_ign n b).1.length = n := by
  unfold read_exact_ign
  simp only [List.length_append, List.length_replicate]
  have : ((b.data.drop b.pos).take n).length ≤ n := by
    simp [List.length_take]
  omega

lemma read_columns_length :
    ∀ (types : List Nat) (b : ByteSource) (l : List ColumnInfo) (b' : ByteSource),
      TableMap.read_columns types b = some (l, b') → l.length = types.length := by
  intro types
  induction types with
  | nil =>
    intro b l b' h
    simp [TableMap.read_columns] at h
    simp [← h.1]
  | cons c cs ih =>
    intro b l b' h
    have hcons : TableMap.read_columns (c :: cs) b =
        (TableMap.read_column_meta b c).bind fun m =>
          (TableMap.read_columns cs m.2).bind fun t =>
            some (⟨ColumnTypeDict.from_type_code c, m.1⟩ :: t.1, t.2) := rfl
    rw [hcons] at h
    simp only [Option.bind_eq_some] at h
    obtain ⟨⟨meta, b1⟩, hm, ⟨tl2, b2⟩, ht, hfin⟩ := h
    simp only [Option.some.injEq, Prod.mk.injEq] at hfin
    obtain ⟨hl, -⟩ := hfin
    rw [← hl]
    simp [ih b1 tl2 b2 ht]

lemma read_columns_types_order :
    ∀ (types : List Nat) (b : ByteSource) (l : List ColumnInfo) (b' : ByteSource),
      TableMap.read_columns types b = some (l, b') →
      ∀ i : Nat, (l[i]?).map (fun c => c.column_type) =
        (types[i]?).map ColumnTypeDict.from_type_code := by
  intro types
  induction types with
  | nil =>
    intro b l b' h i
    simp [TableMap.read_columns] at h
    simp [h.1]
  | cons c cs ih =>
    intro b l b' h i
    have hcons : TableMap.read_columns (c :: cs) b =
        (TableMap.read_column_meta b c).bind fun m =>
          (TableMap.read_columns cs m.2).bind fun t =>
            some (⟨ColumnTypeDict.from_type_code c, m.1⟩ :: t.1, t.2) := rfl
    rw [hcons] at h
    simp only [Option.bind_eq_some] at h
    obtain ⟨⟨meta, b1⟩, hm, ⟨tl2, b2⟩, ht, hfin⟩ := h
    simp only [Option.some.injEq, Prod.mk.injEq] at hfin
    obtain ⟨hl, -⟩ := hfin
    rw [← hl]
    cases i with
    | zero => simp
    | succ j => simpa using ih b1 tl2 b2 ht j

lemma read_string_value_from_len_eq {data : List Nat} {p n : Nat}
    {l : List Nat} {r0 : Nat} {r : List Nat}
    (hd : data.drop p = l ++ r0 :: r) (hl : l.length = n) :
    read_string_value_from_len ⟨data, p⟩ n = some (l, ⟨data, p + n⟩) := by
  have hlen := congrArg List.length hd
  rw [List.length_drop] at hlen
  simp [hl] at hlen
  unfold read_string_value_from_len
  simp only
  rw [if_pos (by omega), hd, List.take_left' hl]

/-- C5: (a) whenever `TableMap::read_event` succeeds, the decoded
`column_info` list has exactly `column_count` entries; (b) on any event body
laid out as the source expects — 8 skipped bytes, database length and name,
a terminator, table length and name, a terminator, the column count, the
type-code array, the skipped metadata-length byte, then the metadata bytes —
the decoded `column_info` is exactly the list obtained by folding the
column-metadata decoder over the type-code array in order: it has
`column_count` entries, and the `i`-th entry's `column_type` is the semantic
kind of the `i`-th type-code byte, for every index `i`. -/
theorem c5_column_info_count :
    (∀ (h : EventHeader) (b : ByteSource) (tm : TableMap) (b' : ByteSource),
       TableMap.read_event h b = some (tm, b') →
       tm.column_info.length = tm.column_count) ∧
    (∀ (h : EventHeader) (a0 a1 a2 a3 a4 a5 a6 a7 dl s1 tl s2 cnt ml : Nat)
       (dbname tbname types rest : List Nat) (ci : List ColumnInfo)
       (b' : ByteSource),
       dbname.length = dl →
       tbname.length = tl →
       types.length = cnt →
       TableMap.read_columns types
         ⟨[a0, a1, a2, a3, a4, a5, a6, a7, dl] ++
            (dbname ++ (s1 :: tl :: (tbname ++
              (s2 :: cnt :: (types ++ (ml :: rest)))))),
          14 + dl + tl + cnt⟩ = some (ci, b') →
       TableMap.read_event h
         ⟨[a0, a1, a2, a3, a4, a5, a6, a7, dl] ++
            (dbname ++ (s1 :: tl :: (tbname ++
              (s2 :: cnt :: (types ++ (ml :: rest)))))), 0⟩ =
         some (⟨dbname, tbname, cnt, ci⟩, b') ∧
       ci.length = cnt ∧
       (∀ i : Nat, (ci[i]?).map (fun c => c.column_type) =
         (types[i]?).map ColumnTypeDict.from_type_code)) := by
  constructor
  · intro h b tm b' hd
    have heq : TableMap.read_event h b =
        (read_u8 (seek_cur 8 b)).bind fun d1 =>
          (read_string_value_from_len d1.2 d1.1).bind fun d2 =>
            (read_u8 (seek_cur 1 d2.2)).bind fun d3 =>
              (read_string_value_from_len d3.2 d3.1).bind fun d4 =>
                (read_u8 (seek_cur 1 d4.2)).bind fun d5 =>
                  (TableMap.read_columns (read_exact_ign d5.1 d5.2).1
                      (seek_cur 1 (read_exact_ign d5.1 d5.2).2)).bind fun d6 =>
                    some (⟨d2.1, d4.1, d5.1, d6.1⟩, d6.2) := rfl
    rw [heq] at hd
    simp only [Option.bind_eq_some] at hd
    obtain ⟨⟨dl, b1⟩, h1, ⟨db, b2⟩, h2, ⟨tl2, b3⟩, h3, ⟨tb, b4⟩, h4,
      ⟨cnt, b5⟩, h5, ⟨ci, b6⟩, h6, hfin⟩ := hd
    simp only [Option.some.injEq, Prod.mk.injEq] at hfin
    obtain ⟨htm, -⟩ := hfin
    rw [← htm]
    have hci : ci.length = cnt := by
      have hl := read_columns_length _ _ _ _ h6
      rw [hl, read_exact_ign_length]
    simpa using hci
  intro h a0 a1 a2 a3 a4 a5 a6 a7 dl s1 tl s2 cnt ml dbname tbname types rest
    ci b' hdb htb hty hcols
  set L := [a0, a1, a2, a3, a4, a5, a6, a7, dl] ++
    (dbname ++ (s1 :: tl :: (tbname ++
      (s2 :: cnt :: (types ++ (ml :: rest)))))) with hLdef
  have heq : TableMap.read_event h ⟨L, 0⟩ =
      (read_u8 (seek_cur 8 ⟨L, 0⟩)).bind fun d1 =>
        (read_string_value_from_len d1.2 d1.1).bind fun d2 =>
          (read_u8 (seek_cur 1 d2.2)).bind fun d3 =>
            (read_string_value_from_len d3.2 d3.1).bind fun d4 =>
              (read_u8 (seek_cur 1 d4.2)).bind fun d5 =>
                (TableMap.read_columns (read_exact_ign d5.1 d5.2).1
                    (seek_cur 1 (read_exact_ign d5.1 d5.2).2)).bind fun d6 =>
                  some (⟨d2.1, d4.1, d5.1, d6.1⟩, d6.2) := rfl
  have d0 : L.drop 0 = a0 :: a1 :: a2 :: a3 :: a4 :: a5 :: a6 :: a7 :: dl ::
      (dbname ++ (s1 :: tl :: (tbname ++
        (s2 :: cnt :: (types ++ (ml :: rest)))))) := by
    simp [hLdef]
  have d8 : L.drop 8 = dl :: (dbname ++ (s1 :: tl :: (tbname ++
      (s2 :: cnt :: (types ++ (ml :: rest)))))) :=
    drop_step (drop_step (drop_step (drop_step
      (drop_step (drop_step (drop_step (drop_step d0)))))))
  have d9 : L.drop 9 = dbname ++ (s1 :: tl :: (tbname ++
      (s2 :: cnt :: (types ++ (ml :: rest))))) := drop_step d8
  have dA : L.drop (9 + dl) = s1 :: tl :: (tbname ++
      (s2 :: cnt :: (types ++ (ml :: rest)))) := by
    have hdd : L.drop (9 + dl) = (L.drop 9).drop dl := by
      rw [List.drop_drop, Nat.add_comm]
    rw [hdd, d9, List.drop_left' hdb]
  have dB : L.drop (9 + dl + 1) = tl :: (tbname ++
      (s2 :: cnt :: (types ++ (ml :: rest)))) := drop_step dA
  have dC : L.drop (9 + dl + 1 + 1) = tbname ++
      (s2 :: cnt :: (types ++ (ml :: rest))) := drop_step dB
  have dD : L.drop (9 + dl + 1 + 1 + tl) = s2 :: cnt ::
      (types ++ (ml :: rest)) := by
    have hdd : L.drop (9 + dl + 1 + 1 + tl) =
        (L.drop (9 + dl + 1 + 1)).drop tl := by
      rw [List.drop_drop, Nat.add_comm]
    rw [hdd, dC, List.drop_left' htb]
  have dE : L.drop (9 + dl + 1 + 1 + tl + 1) = cnt ::
      (types ++ (ml :: rest)) := drop_step dD
  have dF : L.drop (9 + dl + 1 + 1 + tl + 1 + 1) = types ++ (ml :: rest) :=
    drop_step dE
  have h1 : read_u8 ⟨L, 8⟩ = some (dl, ⟨L, 9⟩) := read_u8_eq d8
  have h2 : read_string_value_from_len ⟨L, 9⟩ dl =
      some (dbname, ⟨L, 9 + dl⟩) := read_string_value_from_len_eq d9 hdb
  have h3 : read_u8 ⟨L, 9 + dl + 1⟩ = some (tl, ⟨L, 9 + dl + 1 + 1⟩) :=
    read_u8_eq dB
  have h4 : read_string_value_from_len ⟨L, 9 + dl + 1 + 1⟩ tl =
      some (tbname, ⟨L, 9 + dl + 1 + 1 + tl⟩) :=
    read_string_value_from_len_eq dC htb
  have h5 : read_u8 ⟨L, 9 + dl + 1 + 1 + tl + 1⟩ =
      some (cnt, ⟨L, 9 + dl + 1 + 1 + tl + 1 + 1⟩) := read_u8_eq dE
  have hex : read_exact_ign cnt ⟨L, 9 + dl + 1 + 1 + tl + 1 + 1⟩ =
      (types, ⟨L, 9 + dl + 1 + 1 + tl + 1 + 1 + cnt⟩) := by
    unfold read_exact_ign
    simp only
    rw [dF, List.take_left' hty, hty]
    simp
  have hcols2 : TableMap.read_columns types
      ⟨L, 9 + dl + 1 + 1 + tl + 1 + 1 + cnt + 1⟩ = some (ci, b') := by
    have e : (14 : Nat) + dl + tl + cnt =
        9 + dl + 1 + 1 + tl + 1 + 1 + cnt + 1 := by omega
    rw [e] at hcols
    exact hcols
  refine ⟨?_, ?_, ?_⟩
  · rw [heq]
    simp [seek_cur, h1, h2, h3, h4, h5, hex, hcols2]
  · have hl := read_columns_length _ _ _ _ hcols2
    rw [hl, hty]
  · intro i
    exact read_columns_types_order _ _ _ _ hcols2 i

/-- A concrete TableMap event source: 8 skipped bytes, database `[100]`,
table `[116]`, two columns with type codes 15 (varchar) and 3 (long), a
skipped metadata-length byte, then the varchar metadata `300`. -/
def tm_demo_src : ByteSource :=
  ⟨[0, 0, 0, 0, 0, 0, 0, 0, 1, 100, 0, 1, 116, 0, 2, 15, 3, 9, 44, 1], 0⟩

/-- A header for the demo decodes (its fields are not consulted by the body
decoders under scrutiny). -/
def hdr_demo : EventHeader := ⟨0, BinlogEvent.TableMapEvent, 0, 0, 0, 0, 19⟩

/-- The TableMap value decoded from `tm_demo_src`. -/
def tm_demo : TableMap :=
  ⟨[100], [116], 2,
   [⟨ColumnTypeDict.MYSQL_TYPE_VARCHAR, [2]⟩,
    ⟨ColumnTypeDict.MYSQL_TYPE_LONG, [0]⟩]⟩

/-- Witness for C5: the concrete TableMap event decodes to `tm_demo`, whose
column list has as many entries as the two-byte type-code array `[15, 3]`,
each entry's `column_type` matching its type code in order. -/
theorem c5_witness :
    TableMap.read_event hdr_demo tm_demo_src =
      some (tm_demo, ⟨tm_demo_src.data, 20⟩) ∧
    tm_demo.column_info.length = 2 ∧
    (∀ i : Nat, (tm_demo.column_info[i]?).map (fun c => c.column_type) =
      (([15, 3] : List Nat)[i]?).map ColumnTypeDict.from_type_code) :=
  c5_column_info_count.2 hdr_demo 0 0 0 0 0 0 0 0 1 0 1 0 2 9
    [100] [116] [15, 3] [44, 1] tm_demo.column_info ⟨tm_demo_src.data, 20⟩
    rfl rfl rfl (by decide)

lemma read_u8_bound {b : ByteSource} {v : Nat} {b' : ByteSource}
    (h : read_u8 b = some (v, b')) :
    b.pos + 1 ≤ b.data.length ∧ b' = ⟨b.data, b.pos + 1⟩ := by
  unfold read_u8 at h
  rcases hd : b.data.drop b.pos with _ | ⟨x, xs⟩ <;> rw [hd] at h
  · simp at h
  have hlen := congrArg List.length hd
  rw [List.length_drop] at hlen
  simp at hlen h
  exact ⟨by omega, h.2.symm⟩

lemma read_u16_le_bound {b : ByteSource} {v : Nat} {b' : ByteSource}
    (h : read_u16_le b = some (v, b')) :
    b.pos + 2 ≤ b.data.length ∧ b' = ⟨b.data, b.pos + 2⟩ := by
  unfold read_u16_le at h
  rcases hd : b.data.drop b.pos with _ | ⟨x0, _ | ⟨x1, xs⟩⟩ <;> rw [hd] at h <;>
    try simp at h
  have hlen := congrArg List.length hd
  rw [List.length_drop] at hlen
  simp at hlen
  exact ⟨by omega, h.2.symm⟩

lemma read_u32_le_bound {b : ByteSource} {v : Nat} {b' : ByteSource}
    (h : read_u32_le b = some (v, b')) :
    b.pos + 4 ≤ b.data.length ∧ b' = ⟨b.data, b.pos + 4⟩ := by
  unfold read_u32_le at h
  rcases hd : b.data.drop b.pos with
    _ | ⟨x0, _ | ⟨x1, _ | ⟨x2, _ | ⟨x3, xs⟩⟩⟩⟩ <;> rw [hd] at h <;>
    try simp at h
  have hlen := congrArg List.length hd
  rw [List.length_drop] at hlen
  simp at hlen
  exact ⟨by omega, h.2.symm⟩

lemma eventHeader_new_bound {repl : Bool} {b : ByteSource}
    {r : EventHeader × ByteSource}
    (h : EventHeader.new repl b = some r) :
    b.pos + (if repl then 20 else 19) ≤ b.data.length := by
  cases repl with
  | false =>
    have heq : EventHeader.new false b =
        (read_u32_le b).bind fun d1 =>
          (read_u8 d1.2).bind fun d2 =>
            (read_u32_le d2.2).bind fun d3 =>
              (read_u32_le d3.2).bind fun d4 =>
                (read_u32_le d4.2).bind fun d5 =>
                  (read_u16_le d5.2).bind fun d6 =>
                    some (⟨d1.1, EventHeader.get_type_code_event (some d2.1),
                           d3.1, d4.1, d5.1, d6.1, 19⟩, d6.2) := rfl
    rw [heq] at h
    simp only [Option.bind_eq_some] at h
    obtain ⟨⟨ts, b1⟩, h1, ⟨tc, b2⟩, h2, ⟨si, b3⟩, h3, ⟨el, b4⟩, h4,
      ⟨np, b5⟩, h5, ⟨fl, b6⟩, h6, -⟩ := h
    obtain ⟨g1, e1⟩ := read_u32_le_bound h1
    rw [e1] at h2
    obtain ⟨g2, e2⟩ := read_u8_bound h2
    rw [e2] at h3
    obtain ⟨g3, e3⟩ := read_u32_le_bound h3
    rw [e3] at h4
    obtain ⟨g4, e4⟩ := read_u32_le_bound h4
    rw [e4] at h5
    obtain ⟨g5, e5⟩ := read_u32_le_bound h5
    rw [e5] at h6
    obtain ⟨g6, e6⟩ := read_u16_le_bound h6
    simp at g1 g2 g3 g4 g5 g6
    norm_num
    omega
  | true =>
    have heq : EventHeader.new true b =
        (read_u32_le (seek_cur 1 b)).bind fun d1 =>
          (read_u8 d1.2).bind fun d2 =>
            (read_u32_le d2.2).bind fun d3 =>
              (read_u32_le d3.2).bind fun d4 =>
                (read_u32_le d4.2).bind fun d5 =>
                  (read_u16_le d5.2).bind fun d6 =>
                    some (⟨d1.1, EventHeader.get_type_code_event (some d2.1),
                           d3.1, d4.1, d5.1, d6.1, 20⟩, d6.2) := rfl
    rw [heq] at h
    simp only [Option.bind_eq_some] at h
    obtain ⟨⟨ts, b1⟩, h1, ⟨tc, b2⟩, h2, ⟨si, b3⟩, h3, ⟨el, b4⟩, h4,
      ⟨np, b5⟩, h5, ⟨fl, b6⟩, h6, -⟩ := h
    obtain ⟨g1, e1⟩ := read_u32_le_bound h1
    rw [e1] at h2
    obtain ⟨g2, e2⟩ := read_u8_bound h2
    rw [e2] at h3
    obtain ⟨g3, e3⟩ := read_u32_le_bound h3
    rw [e3] at h4
    obtain ⟨g4, e4⟩ := read_u32_le_bound h4
    rw [e4] at h5
    obtain ⟨g5, e5⟩ := read_u32_le_bound h5
    rw [e5] at h6
    obtain ⟨g6, e6⟩ := read_u16_le_bound h6
    simp [seek_cur] at g1 g2 g3 g4 g5 g6
    norm_num
    omega

/-- C2: on a source holding fewer bytes than the fixed header requires
(19, or 20 in `repl` mode), `EventHeader::new` never returns a header — in
particular never one with silently zero-filled fields; the failed inner read
is unwrapped by the source, i.e. the process panics (modelled by `none`)
instead of surfacing a distinct truncated-header error. -/
theorem c2_truncated_header (repl : Bool) (data : List Nat) (pos : Nat)
    (h : data.length < pos + (if repl then 20 else 19)) :
    EventHeader.new repl ⟨data, pos⟩ = none := by
  cases hres : EventHeader.new repl ⟨data, pos⟩ with
  | none => rfl
  | some r =>
    have hb := eventHeader_new_bound hres
    cases repl <;> simp at hb h <;> omega

/-- Witness for C2: a 3-byte source is shorter than the 19-byte header, and
decoding it yields no header. -/
theorem c2_witness : EventHeader.new false ⟨[0, 0, 0], 0⟩ = none :=
  c2_truncated_header false [0, 0, 0] 0 (by decide)

/-- A Query-event source: the 13 fixed bytes (thread id, execute seconds, a
zero database-name length, error code, a zero status-block length), the
skipped NUL byte, then five further bytes remaining in the source. -/
def query_demo_src : ByteSource :=
  ⟨[0, 0, 0, 0, 0, 0, 0, 0, 0, 0, 0, 0, 0, 0, 65, 66, 67, 68, 69], 0⟩

/-- A Query header declaring `event_length = 16`: relative to the cursor of
`query_demo_src`, the command begins at offset 14, so the claimed command
length is 2. -/
def hdr_q16 : EventHeader := ⟨0, BinlogEvent.QueryEvent, 0, 16, 0, 0, 19⟩

/-- A Query header declaring `event_length = 0`, making the source's
`event_length - tell()` computation underflow. -/
def hdr_q0 : EventHeader := ⟨0, BinlogEvent.QueryEvent, 0, 0, 0, 0, 19⟩

/-- C1 (counterexample, code bug): with `event_length = 16` and the command
beginning at cursor offset 14, the claimed command length is `16 - 14 = 2`,
but the decoder returns all 5 bytes remaining in the source: the computed
`command_length` is dead code and `read_to_end` is unbounded. -/
theorem c1_command_length_bug :
    QueryEvent.read_event hdr_q16 query_demo_src =
      some (⟨0, 0, [], [65, 66, 67, 68, 69]⟩, ⟨query_demo_src.data, 19⟩) ∧
    ¬ ([65, 66, 67, 68, 69] : List Nat).length = hdr_q16.event_length - 14 := by
  decide

/-- C3 (code bug): with `event_length = 0` the remaining-bytes computation
`event_length - tell()` underflows (`0 - 14 < 0` over the integers), yet
decoding does not fail with any error: the wrapped value is never used and
the decoder succeeds, returning the remaining bytes of the source. -/
theorem c3_underflow_ignored :
    ((hdr_q0.event_length : Int) - ((14 : Nat) : Int) < 0) ∧
    QueryEvent.read_event hdr_q0 query_demo_src =
      some (⟨0, 0, [], [65, 66, 67, 68, 69]⟩, ⟨query_demo_src.data, 19⟩) := by
  decide

lemma read_u64_le_none {data : List Nat} {p : Nat} (h : data.drop p = []) :
    read_u64_le ⟨data, p⟩ = none := by
  unfold read_u64_le
  simp only
  rw [h]

/-- C4 (code bug): on a legacy Gtid body holding only the flag byte, the
16-byte SID and the 8-byte GNO — the trailing `last_committed` and
`sequence_number` fields absent — decoding returns no event at all (the
unwrapped read fails, i.e. the process panics), instead of succeeding with
the two trailing fields defaulted to zero. -/
theorem c4_legacy_gtid_panics (h : EventHeader)
    (flag g0 g1 g2 g3 g4 g5 g6 g7 : Nat) (sid : List Nat)
    (hsid : sid.length = 16) :
    GtidEvent.read_event h
      ⟨flag :: (sid ++ [g0, g1, g2, g3, g4, g5, g6, g7]), 0⟩ = none := by
  have heq : GtidEvent.read_event h
      ⟨flag :: (sid ++ [g0, g1, g2, g3, g4, g5, g6, g7]), 0⟩ =
      (read_u64_le (read_exact_ign 16
          (seek_cur 1 ⟨flag :: (sid ++ [g0, g1, g2, g3, g4, g5, g6, g7]), 0⟩)).2).bind
        fun d1 =>
          (read_u64_le d1.2).bind fun d2 =>
            (read_u64_le d2.2).bind fun d3 =>
              some (⟨(read_exact_ign 16
                  (seek_cur 1 ⟨flag :: (sid ++ [g0, g1, g2, g3, g4, g5, g6, g7]), 0⟩)).1,
                  d1.1, d2.1, d3.1⟩, d3.2) := rfl
  rw [heq]
  have hd1 : (flag :: (sid ++ [g0, g1, g2, g3, g4, g5, g6, g7])).drop 1 =
      sid ++ [g0, g1, g2, g3, g4, g5, g6, g7] := rfl
  have hex : (read_exact_ign 16
      (seek_cur 1 ⟨flag :: (sid ++ [g0, g1, g2, g3, g4, g5, g6, g7]), 0⟩)).2 =
      ⟨flag :: (sid ++ [g0, g1, g2, g3, g4, g5, g6, g7]), 17⟩ := by
    unfold read_exact_ign seek_cur
    simp only
    rw [hd1, List.take_left' hsid, hsid]
  rw [hex]
  have d17 : (flag :: (sid ++ [g0, g1, g2, g3, g4, g5, g6, g7])).drop 17 =
      [g0, g1, g2, g3, g4, g5, g6, g7] := by
    have h1 : (flag :: (sid ++ [g0, g1, g2, g3, g4, g5, g6, g7])).drop 17 =
        ((flag :: (sid ++ [g0, g1, g2, g3, g4, g5, g6, g7])).drop 1).drop 16 := by
      rw [List.drop_drop]
    rw [h1, hd1, List.drop_left' hsid]
  have h64 := read_u64_le_eq d17
  rw [h64]
  simp only [Option.some_bind]
  have d25 : (flag :: (sid ++ [g0, g1, g2, g3, g4, g5, g6, g7])).drop 25 = [] := by
    have h1 : (flag :: (sid ++ [g0, g1, g2, g3, g4, g5, g6, g7])).drop 25 =
        ((flag :: (sid ++ [g0, g1, g2, g3, g4, g5, g6, g7])).drop 17).drop 8 := by
      rw [List.drop_drop]
    rw [h1, d17]
    rfl
  rw [read_u64_le_none d25]
  rfl

/-- Witness for C4: the all-zero 25-byte legacy Gtid body decodes to
nothing. -/
theorem c4_witness :
    GtidEvent.read_event hdr_q0
      ⟨0 :: (List.replicate 16 0 ++ [0, 0, 0, 0, 0, 0, 0, 0]), 0⟩ = none :=
  c4_legacy_gtid_panics hdr_q0 0 0 0 0 0 0 0 0 0 (List.replicate 16 0) (by decide)

set_option maxHeartbeats 1000000 in
/-- C10: `QueryEvent::read_event` reads the command with `read_to_end`, so
the decoded command is every byte remaining in the underlying source after
the skipped NUL byte — the separately computed `command_length` is never
used (the result is identical for any two headers), and bytes lying beyond
the event's declared end are included in the returned command. -/
theorem c10_command_is_read_to_end :
    (∀ (h1 h2 : EventHeader) (b : ByteSource),
       QueryEvent.read_event h1 b = QueryEvent.read_event h2 b) ∧
    (∀ (h : EventHeader) (t0 t1 t2 t3 x0 x1 x2 x3 dl r0 r1 v0 v1 z : Nat)
       (svars dbname rest : List Nat),
       svars.length = v0 + 256 * v1 →
       dbname.length = dl →
       (QueryEvent.read_event h
           ⟨[t0, t1, t2, t3, x0, x1, x2, x3, dl, r0, r1, v0, v1] ++
             (svars ++ (dbname ++ z :: rest)), 0⟩).map Prod.fst =
         some ⟨t0 + 256 * t1 + 256 ^ 2 * t2 + 256 ^ 3 * t3,
               x0 + 256 * x1 + 256 ^ 2 * x2 + 256 ^ 3 * x3,
               dbname, rest⟩) := by
  constructor
  · intro h1 h2 b
    rfl
  intro h t0 t1 t2 t3 x0 x1 x2 x3 dl r0 r1 v0 v1 z svars dbname rest hsv hdb
  set L := [t0, t1, t2, t3, x0, x1, x2, x3, dl, r0, r1, v0, v1] ++
    (svars ++ (dbname ++ z :: rest)) with hLdef
  have heq : QueryEvent.read_event h ⟨L, 0⟩ =
      (read_u32_le ⟨L, 0⟩).bind fun d1 =>
        (read_u32_le d1.2).bind fun d2 =>
          (read_u8 d2.2).bind fun d3 =>
            (read_u16_le d3.2).bind fun d4 =>
              (read_u16_le d4.2).bind fun d5 =>
                some (⟨d1.1, d2.1,
                  read_string_value
                    (read_exact_ign d3.1 (seek_cur d5.1 d5.2)).1,
                  read_string_value
                    (read_to_end (seek_cur 1
                      (read_exact_ign d3.1 (seek_cur d5.1 d5.2)).2)).1⟩,
                  (read_to_end (seek_cur 1
                    (read_exact_ign d3.1 (seek_cur d5.1 d5.2)).2)).2) := rfl
  have d0 : L.drop 0 = t0 :: t1 :: t2 :: t3 :: x0 :: x1 :: x2 :: x3 :: dl ::
      r0 :: r1 :: v0 :: v1 :: (svars ++ (dbname ++ z :: rest)) := by
    simp [hLdef]
  have d4 : L.drop 4 = x0 :: x1 :: x2 :: x3 :: dl :: r0 :: r1 :: v0 :: v1 ::
      (svars ++ (dbname ++ z :: rest)) :=
    drop_step (drop_step (drop_step (drop_step d0)))
  have d8 : L.drop 8 = dl :: r0 :: r1 :: v0 :: v1 ::
      (svars ++ (dbname ++ z :: rest)) :=
    drop_step (drop_step (drop_step (drop_step d4)))
  have d9 : L.drop 9 = r0 :: r1 :: v0 :: v1 ::
      (svars ++ (dbname ++ z :: rest)) := drop_step d8
  have d11 : L.drop 11 = v0 :: v1 :: (svars ++ (dbname ++ z :: rest)) :=
    drop_step (drop_step d9)
  have d13 : L.drop 13 = svars ++ (dbname ++ z :: rest) :=
    drop_step (drop_step d11)
  have h1 : read_u32_le ⟨L, 0⟩ =
      some (t0 + 256 * t1 + 256 ^ 2 * t2 + 256 ^ 3 * t3, ⟨L, 4⟩) :=
    read_u32_le_eq d0
  have h2 : read_u32_le ⟨L, 4⟩ =
      some (x0 + 256 * x1 + 256 ^ 2 * x2 + 256 ^ 3 * x3, ⟨L, 8⟩) :=
    read_u32_le_eq d4
  have h3 : read_u8 ⟨L, 8⟩ = some (dl, ⟨L, 9⟩) := read_u8_eq d8
  have h4 : read_u16_le ⟨L, 9⟩ = some (r0 + 256 * r1, ⟨L, 11⟩) :=
    read_u16_le_eq d9
  have h5 : read_u16_le ⟨L, 11⟩ = some (v0 + 256 * v1, ⟨L, 13⟩) :=
    read_u16_le_eq d11
  have dS : L.drop (13 + (v0 + 256 * v1)) = dbname ++ z :: rest := by
    have hdd : L.drop (13 + (v0 + 256 * v1)) =
        (L.drop 13).drop (v0 + 256 * v1) := by
      rw [List.drop_drop, Nat.add_comm]
    rw [hdd, d13, ← hsv, List.drop_left]
  have hex : read_exact_ign dl ⟨L, 13 + (v0 + 256 * v1)⟩ =
      (dbname, ⟨L, 13 + (v0 + 256 * v1) + dl⟩) := by
    unfold read_exact_ign
    simp only
    rw [dS, List.take_left' hdb, hdb]
    simp
  have dz : L.drop (13 + (v0 + 256 * v1) + dl) = z :: rest := by
    have hdd : L.drop (13 + (v0 + 256 * v1) + dl) =
        (L.drop (13 + (v0 + 256 * v1))).drop dl := by
      rw [List.drop_drop, Nat.add_comm]
    rw [hdd, dS, List.drop_left' hdb]
  have dr : L.drop (13 + (v0 + 256 * v1) + dl + 1) = rest := drop_step dz
  have hcmd : (read_to_end ⟨L, 13 + (v0 + 256 * v1) + dl + 1⟩).1 = rest := by
    unfold read_to_end
    simpa using dr
  rw [heq]
  simp [h1, h2, h3, h4, h5, seek_cur, hex, hcmd, read_string_value]

/-- Witness for C10: a concrete Query event whose source carries one
status-variable byte, a one-byte database name and two trailing bytes; the
decoded command is exactly those remaining two bytes. -/
theorem c10_witness :
    (QueryEvent.read_event hdr_q16
        ⟨[0, 0, 0, 0, 0, 0, 0, 0, 1, 0, 0, 1, 0] ++
          ([9] ++ ([100] ++ 0 :: [65, 66])), 0⟩).map Prod.fst =
      some ⟨0 + 256 * 0 + 256 ^ 2 * 0 + 256 ^ 3 * 0,
            0 + 256 * 0 + 256 ^ 2 * 0 + 256 ^ 3 * 0, [100], [65, 66]⟩ :=
  c10_command_is_read_to_end.2 hdr_q16 0 0 0 0 0 0 0 0 1 0 0 1 0 0
    [9] [100] [65, 66] rfl rfl
